import Mathlib

/-!
Verification development for the watchmedo command-line tool
(file src/watchdog/watchmedo.py). The Python source is shallowly
embedded: each function of the orchestration layer becomes a Lean
definition over explicit state, and the claims about the tool are
proved or refuted against those definitions.
-/

namespace Watchmedo

/-! ### Trick scheduling (schedule_tricks, lines 153-172)

A trick configuration entry is a mapping from handler identifiers to
parameter mappings; Python dicts preserve insertion order, so both are
association lists. Dynamic class loading (load_class) and handler
construction (TrickClass(**value)) can each fail with an exception;
they are modelled as environment-supplied fallible functions. -/

/-- A parameter mapping passed to a handler constructor, in insertion order. -/
abbrev Params := List (String × String)

/-- One trick entry of the configuration: the items of one mapping, in
insertion order. The configuration format declares single-key mappings,
but the code iterates whatever items the mapping holds. -/
abbrev Trick := List (String × Params)

/-- The Python attribute source_directory as the scheduler sees it via
getattr with a None default: absent, present but None, or a string. -/
inductive SourceDir
  | absent
  | pyNone
  | path (s : String)
deriving DecidableEq, Inhabited, Repr

/-- A constructed trick handler. The tag distinguishes handler instances;
sourceDirectory is the attribute consulted for the watch-path override. -/
structure Handler where
  tag : Nat
  sourceDirectory : SourceDir
deriving DecidableEq, Inhabited, Repr

/-- A loaded trick class: its constructor, which receives the full
parameter mapping and may raise. -/
structure TrickClass where
  construct : Params → Except String Handler

/-- The dynamic-loading environment: load_class resolves a dotted
identifier to a class or raises. -/
structure Env where
  load_class : String → Except String TrickClass

/-- One watch registered on an observer by observer.schedule. -/
structure Watch where
  handler : Handler
  pathname : String
  recursive : Bool
deriving DecidableEq, Inhabited, Repr

/-- The value of getattr(handler, source_directory, None). -/
def getattr_source_directory : SourceDir → Option String
  | SourceDir.absent => Option.none
  | SourceDir.pyNone => Option.none
  | SourceDir.path s => Option.some s

/-- Line 171: getattr(handler, source_directory, None) or pathname.
Python or-semantics select by truthiness: None and the empty string are
falsy, so both fall back to the default pathname. -/
def effective_trick_pathname (sd : SourceDir) (pathname : String) : String :=
  match getattr_source_directory sd with
  | Option.none => pathname
  | Option.some s => if s = "" then pathname else s

/-- Lines 169-172 for a single (name, value) item: load the class,
construct the handler with the full parameter mapping, and build the
watch to register, or propagate the first exception. -/
def schedule_one (env : Env) (pathname : String) (recursive : Bool)
    (item : String × Params) : Except String Watch :=
  match env.load_class item.1 with
  | Except.error e => Except.error e
  | Except.ok cls =>
    match cls.construct item.2 with
    | Except.error e => Except.error e
    | Except.ok handler =>
        Except.ok (Watch.mk handler
          (effective_trick_pathname handler.sourceDirectory pathname) recursive)

/-- Whether an Except carries a value. -/
def exceptOk {ε α : Type} : Except ε α → Bool
  | Except.ok _ => true
  | Except.error _ => false

/-- The watch produced by a successful schedule_one, defaulting on error. -/
def ok_watch (env : Env) (pathname : String) (recursive : Bool)
    (item : String × Params) : Watch :=
  match schedule_one env pathname recursive item with
  | Except.ok w => w
  | Except.error _ => default

/-- The inner loop of schedule_tricks (line 168): iterate the items of one
trick mapping, registering one watch per item; an exception stops the loop,
leaving the watches registered so far in place. -/
def schedule_items (env : Env) (pathname : String) (recursive : Bool) :
    List (String × Params) → List Watch × Option String
  | [] => ([], Option.none)
  | item :: rest =>
    match schedule_one env pathname recursive item with
    | Except.error e => ([], Option.some e)
    | Except.ok w =>
        let r := schedule_items env pathname recursive rest
        (w :: r.1, r.2)

/-- The outer loop of schedule_tricks (lines 167-172): iterate the trick
entries in declaration order; an exception raised while handling one entry
propagates and halts all scheduling. The first component collects the
watches registered on the observer, in registration order. -/
def schedule_tricks (env : Env) (tricks : List Trick) (pathname : String)
    (recursive : Bool) : List Watch × Option String :=
  match tricks with
  | [] => ([], Option.none)
  | trick :: rest =>
    match schedule_items env pathname recursive trick with
    | (ws, Option.some e) => (ws, Option.some e)
    | (ws, Option.none) =>
        let r := schedule_tricks env rest pathname recursive
        (ws ++ r.1, r.2)

/-! ### Python path manipulation (add_to_sys_path, lines 90-101) -/

/-- Python list.insert(index, x): insert x before position index,
clamping to the end of the list. -/
def list_insert (l : List String) (index : Nat) (x : String) : List String :=
  l.take index ++ x :: l.drop index

/-- Lines 100-101: iterate the pathnames in reverse and insert each at
the given index of the resolution path (sys.path), returning the new
resolution path. The call sites use index 0. -/
def add_to_sys_path (pathnames : List String) (index : Nat)
    (sys_path : List String) : List String :=
  pathnames.reverse.foldl (fun acc p => list_insert acc index p) sys_path

/-! ### Helper lemmas for the scheduler -/

theorem schedule_items_all_ok (env : Env) (pathname : String) (recursive : Bool) :
    ∀ items : List (String × Params),
    (∀ p ∈ items, exceptOk (schedule_one env pathname recursive p) = true) →
    schedule_items env pathname recursive items
      = (items.map (ok_watch env pathname recursive), Option.none) := by
  intro items
  induction items with
  | nil => intro _; rfl
  | cons p rest ih =>
    intro h
    have hp := h p (List.mem_cons_self p rest)
    have hrest : ∀ q ∈ rest, exceptOk (schedule_one env pathname recursive q) = true :=
      fun q hq => h q (List.mem_cons_of_mem p hq)
    unfold schedule_items
    cases hw : schedule_one env pathname recursive p with
    | error e => rw [hw] at hp; simp [exceptOk] at hp
    | ok w =>
      simp only [ih hrest, List.map_cons]
      have : ok_watch env pathname recursive p = w := by
        unfold ok_watch; rw [hw]
      rw [this]

theorem schedule_tricks_all_ok (env : Env) (pathname : String) (recursive : Bool) :
    ∀ tricks : List Trick,
    (∀ p ∈ tricks.flatten, exceptOk (schedule_one env pathname recursive p) = true) →
    schedule_tricks env tricks pathname recursive
      = (tricks.flatten.map (ok_watch env pathname recursive), Option.none) := by
  intro tricks
  induction tricks with
  | nil => intro _; rfl
  | cons t rest ih =>
    intro h
    have ht : ∀ p ∈ t, exceptOk (schedule_one env pathname recursive p) = true := by
      intro p hp
      exact h p (by rw [List.flatten_cons]; exact List.mem_append.mpr (Or.inl hp))
    have hrest : ∀ p ∈ rest.flatten, exceptOk (schedule_one env pathname recursive p) = true := by
      intro p hp
      exact h p (by rw [List.flatten_cons]; exact List.mem_append.mpr (Or.inr hp))
    unfold schedule_tricks
    rw [schedule_items_all_ok env pathname recursive t ht]
    simp only [ih hrest, List.flatten_cons, List.map_append]

theorem flatten_length_of_singletons {α : Type} :
    ∀ l : List (List α), (∀ t ∈ l, t.length = 1) → l.flatten.length = l.length := by
  intro l
  induction l with
  | nil => intro _; rfl
  | cons t rest ih =>
    intro h
    have ht := h t (List.mem_cons_self t rest)
    have hrest := fun q hq => h q (List.mem_cons_of_mem t hq)
    simp [List.flatten_cons, List.length_append, ht, ih hrest]
    omega

theorem schedule_items_stops_at_error (env : Env) (pathname : String) (recursive : Bool) :
    ∀ (pre : List (String × Params)) (bad : String × Params)
      (post : List (String × Params)) (e : String),
    (∀ p ∈ pre, exceptOk (schedule_one env pathname recursive p) = true) →
    schedule_one env pathname recursive bad = Except.error e →
    schedule_items env pathname recursive (pre ++ bad :: post)
      = (pre.map (ok_watch env pathname recursive), Option.some e) := by
  intro pre
  induction pre with
  | nil =>
    intro bad post e _ hbad
    simp only [List.nil_append, List.map_nil]
    unfold schedule_items
    rw [hbad]
  | cons p rest ih =>
    intro bad post e h hbad
    have hp := h p (List.mem_cons_self p rest)
    have hrest := fun q hq => h q (List.mem_cons_of_mem p hq)
    simp only [List.cons_append, List.map_cons]
    unfold schedule_items
    cases hw : schedule_one env pathname recursive p with
    | error e2 => rw [hw] at hp; simp [exceptOk] at hp
    | ok w =>
      rw [ih bad post e hrest hbad]
      have : ok_watch env pathname recursive p = w := by
        unfold ok_watch; rw [hw]
      rw [this]

/-! ### A concrete loading environment used for evaluation -/

/-- A handler class whose constructor always succeeds; it records the
number of parameters it was given and declares no source directory. -/
def demo_class : TrickClass :=
  TrickClass.mk (fun ps => Except.ok (Handler.mk ps.length SourceDir.absent))

/-- A handler class that declares a source-directory override. -/
def override_class : TrickClass :=
  TrickClass.mk (fun _ => Except.ok (Handler.mk 7 (SourceDir.path "/override")))

/-- A loading environment resolving two identifiers and rejecting the rest. -/
def demo_env : Env :=
  Env.mk (fun name =>
    if name = "demo.Trick" then Except.ok demo_class
    else if name = "demo.Override" then Except.ok override_class
    else Except.error "cannot load")

/-- Two single-key trick entries over the demo environment. -/
def demo_tricks : List Trick :=
  [[("demo.Trick", [("patterns", "x")])], [("demo.Override", [])]]

/-! ### Claim C1 -/

/-- C1: For a trick-spec list in which each entry is a single-key mapping
and every spec resolves and constructs, schedule_tricks registers exactly
one watch per spec, in declaration order, with no error; each handler is
constructed by passing the full parameter mapping of its spec to the
loaded class with no further validation, and each watch is registered at
the handler-declared override path when that is truthy, otherwise at the
default pathname, always with the given recursive flag. -/
theorem schedule_tricks_one_watch_per_spec
    (env : Env) (tricks : List Trick) (pathname : String) (recursive : Bool)
    (hone : ∀ t ∈ tricks, t.length = 1)
    (hok : ∀ p ∈ tricks.flatten, exceptOk (schedule_one env pathname recursive p) = true) :
    schedule_tricks env tricks pathname recursive
      = (tricks.flatten.map (ok_watch env pathname recursive), Option.none)
    ∧ (schedule_tricks env tricks pathname recursive).1.length = tricks.length
    ∧ ∀ p ∈ tricks.flatten, ∃ cls handler,
        env.load_class p.1 = Except.ok cls
        ∧ cls.construct p.2 = Except.ok handler
        ∧ ok_watch env pathname recursive p
            = Watch.mk handler
                (effective_trick_pathname handler.sourceDirectory pathname) recursive := by
  have hmain := schedule_tricks_all_ok env pathname recursive tricks hok
  refine ⟨hmain, ?_, ?_⟩
  · rw [hmain, List.length_map]
    exact flatten_length_of_singletons tricks hone
  · intro p hp
    have hpok := hok p hp
    cases hcls : env.load_class p.1 with
    | error e =>
      exfalso
      simp [schedule_one, hcls, exceptOk] at hpok
    | ok cls =>
      cases hcon : cls.construct p.2 with
      | error e =>
        exfalso
        simp [schedule_one, hcls, hcon, exceptOk] at hpok
      | ok handler =>
        refine ⟨cls, handler, rfl, hcon, ?_⟩
        simp [ok_watch, schedule_one, hcls, hcon]

theorem schedule_tricks_one_watch_per_spec_witness :
    schedule_tricks demo_env demo_tricks "/w" true
      = (demo_tricks.flatten.map (ok_watch demo_env "/w" true), Option.none)
    ∧ (schedule_tricks demo_env demo_tricks "/w" true).1.length = demo_tricks.length :=
  ⟨(schedule_tricks_one_watch_per_spec demo_env demo_tricks "/w" true
      (by decide) (by decide)).1,
   (schedule_tricks_one_watch_per_spec demo_env demo_tricks "/w" true
      (by decide) (by decide)).2.1⟩

/-! ### Claim C6 -/

/-- C6: If constructing the handler for spec N fails, schedule_tricks
stops immediately: the watches already registered for the earlier specs
remain registered with no rollback, and no watch for spec N or for any
later spec is registered; the exception propagates. -/
theorem schedule_tricks_halts_on_failure
    (env : Env) (pre : List Trick) (bad : String × Params) (post : List Trick)
    (pathname : String) (recursive : Bool) (e : String)
    (hpre : ∀ p ∈ pre.flatten, exceptOk (schedule_one env pathname recursive p) = true)
    (hbad : schedule_one env pathname recursive bad = Except.error e) :
    schedule_tricks env (pre ++ [bad] :: post) pathname recursive
      = (pre.flatten.map (ok_watch env pathname recursive), Option.some e) := by
  induction pre with
  | nil =>
    simp only [List.nil_append, List.flatten_nil, List.map_nil]
    unfold schedule_tricks
    have : schedule_items env pathname recursive [bad] = ([], Option.some e) := by
      unfold schedule_items
      rw [hbad]
    rw [this]
  | cons t rest ih =>
    have ht : ∀ p ∈ t, exceptOk (schedule_one env pathname recursive p) = true := by
      intro p hp
      exact hpre p (by rw [List.flatten_cons]; exact List.mem_append.mpr (Or.inl hp))
    have hrest : ∀ p ∈ rest.flatten, exceptOk (schedule_one env pathname recursive p) = true := by
      intro p hp
      exact hpre p (by rw [List.flatten_cons]; exact List.mem_append.mpr (Or.inr hp))
    simp only [List.cons_append]
    unfold schedule_tricks
    rw [schedule_items_all_ok env pathname recursive t ht]
    rw [ih hrest]
    simp [List.flatten_cons, List.map_append]

theorem schedule_tricks_halts_on_failure_witness :
    schedule_tricks demo_env
        ([[("demo.Trick", [])]] ++ [("missing.Trick", [])] :: [[("demo.Override", [])]])
        "/w" true
      = ([[("demo.Trick", [])]].flatten.map (ok_watch demo_env "/w" true),
         Option.some "cannot load") :=
  schedule_tricks_halts_on_failure demo_env [[("demo.Trick", [])]]
    ("missing.Trick", []) [[("demo.Override", [])]] "/w" true "cannot load"
    (by decide) (by rfl)

/-! ### Claim C9 -/

/-- C9: schedule_tricks registers one watch per key-value item of each
trick entry mapping: an entry whose mapping holds several identifier keys
yields one registration per key, and an entry with an empty mapping
silently yields no registration at all. -/
theorem schedule_tricks_one_watch_per_item
    (env : Env) (entry : Trick) (rest : List Trick) (pathname : String) (recursive : Bool)
    (hentry : ∀ p ∈ entry, exceptOk (schedule_one env pathname recursive p) = true) :
    (schedule_tricks env (entry :: rest) pathname recursive).1.length
        = entry.length + (schedule_tricks env rest pathname recursive).1.length
    ∧ schedule_tricks env ([] :: rest) pathname recursive
        = schedule_tricks env rest pathname recursive := by
  constructor
  · conv => lhs; rw [schedule_tricks]
    rw [schedule_items_all_ok env pathname recursive entry hentry]
    simp [List.length_append, List.length_map]
  · have h2 : schedule_tricks env ([] :: rest) pathname recursive
        = ([] ++ (schedule_tricks env rest pathname recursive).1,
           (schedule_tricks env rest pathname recursive).2) := rfl
    rw [h2]
    simp

theorem schedule_tricks_one_watch_per_item_witness :
    (schedule_tricks demo_env
        ([("demo.Trick", []), ("demo.Override", [])] :: []) "/w" true).1.length
      = 2 + (schedule_tricks demo_env [] "/w" true).1.length
    ∧ schedule_tricks demo_env ([] :: []) "/w" true
      = schedule_tricks demo_env [] "/w" true :=
  schedule_tricks_one_watch_per_item demo_env
    [("demo.Trick", []), ("demo.Override", [])] [] "/w" true (by decide)

/-! ### Claim C10 -/

/-- C10: The path override on line 171 is applied by Python truthiness,
not attribute presence: a handler whose source_directory attribute is
absent, None, or the empty string is registered at the default pathname,
and only a nonempty declared source directory overrides the default. -/
theorem effective_trick_pathname_truthiness (pathname : String) :
    effective_trick_pathname SourceDir.absent pathname = pathname
    ∧ effective_trick_pathname SourceDir.pyNone pathname = pathname
    ∧ effective_trick_pathname (SourceDir.path "") pathname = pathname
    ∧ ∀ s : String, s ≠ "" →
        effective_trick_pathname (SourceDir.path s) pathname = s := by
  refine ⟨rfl, rfl, rfl, ?_⟩
  intro s hs
  unfold effective_trick_pathname getattr_source_directory
  simp [hs]

theorem effective_trick_pathname_truthiness_witness :
    effective_trick_pathname (SourceDir.path "") "/default" = "/default"
    ∧ effective_trick_pathname (SourceDir.path "/other") "/default" = "/other" :=
  ⟨(effective_trick_pathname_truthiness "/default").2.2.1,
   (effective_trick_pathname_truthiness "/default").2.2.2 "/other" (by decide)⟩

/-! ### Claim C8 -/

theorem foldl_list_insert_zero :
    ∀ (l acc : List String),
    l.foldl (fun a p => list_insert a 0 p) acc = l.reverse ++ acc := by
  intro l
  induction l with
  | nil => intro acc; rfl
  | cons p t ih =>
    intro acc
    have hstep : list_insert acc 0 p = p :: acc := rfl
    simp only [List.foldl_cons, hstep, ih (p :: acc), List.reverse_cons,
      List.append_assoc, List.singleton_append]

/-- C8: add_to_sys_path at index 0 puts all the given pathnames ahead of
every pre-existing entry of the resolution path, preserving their given
relative order, so the first pathname of the list has the highest
resolution priority. -/
theorem add_to_sys_path_prepends_in_order (pathnames sys_path : List String) :
    add_to_sys_path pathnames 0 sys_path = pathnames ++ sys_path := by
  unfold add_to_sys_path
  rw [foldl_list_insert_zero]
  simp [List.reverse_reverse]

/-! ### Termination-signal handling (auto_restart, lines 599-610)

The auto_restart command installs handler_termination_signal for both
SIGTERM and SIGINT. The handler body first loops over the whole
termination-signal set re-installing SIG_IGN for each, and only then
raises WatchdogShutdown. Delivery of a signal runs whatever handler is
currently installed for it; SIG_IGN does nothing. The model tracks the
installed disposition per signal and counts WatchdogShutdown raises. -/

/-- The two termination signals of the set on line 601. -/
inductive Sig
  | sigterm
  | sigint
deriving DecidableEq, Repr

/-- The disposition installed for a signal: the custom
handler_termination_signal or SIG_IGN. -/
inductive Disposition
  | custom
  | ignored
deriving DecidableEq, Repr

/-- Installed dispositions for both termination signals plus the number
of times WatchdogShutdown has been raised. -/
structure SignalState where
  term_disp : Disposition
  int_disp : Disposition
  raises : Nat
deriving DecidableEq, Repr

/-- The disposition currently installed for a signal. -/
def get_disposition (st : SignalState) : Sig → Disposition
  | Sig.sigterm => st.term_disp
  | Sig.sigint => st.int_disp

/-- One primitive step of the handler body: a signal.signal call
installing SIG_IGN, or the raise of WatchdogShutdown. -/
inductive SigStep
  | set_ignore (s : Sig)
  | raise_shutdown
deriving DecidableEq, Repr

/-- Lines 603-607: the body of handler_termination_signal as the ordered
sequence of its effects: neuter every termination signal, then raise. -/
def handler_termination_signal : List SigStep :=
  [SigStep.set_ignore Sig.sigterm, SigStep.set_ignore Sig.sigint,
   SigStep.raise_shutdown]

/-- Apply one step of the handler body to the signal state. -/
def apply_sig_step (st : SignalState) : SigStep → SignalState
  | SigStep.set_ignore Sig.sigterm =>
      SignalState.mk Disposition.ignored st.int_disp st.raises
  | SigStep.set_ignore Sig.sigint =>
      SignalState.mk st.term_disp Disposition.ignored st.raises
  | SigStep.raise_shutdown =>
      SignalState.mk st.term_disp st.int_disp (st.raises + 1)

/-- Deliver one termination signal: run the installed handler. The custom
handler runs its body; SIG_IGN leaves the state unchanged. -/
def deliver (s : Sig) (st : SignalState) : SignalState :=
  match get_disposition st s with
  | Disposition.custom => handler_termination_signal.foldl apply_sig_step st
  | Disposition.ignored => st

/-- Deliver a sequence of termination signals in order. -/
def deliver_all (sigs : List Sig) (st : SignalState) : SignalState :=
  sigs.foldl (fun a s => deliver s a) st

/-- Lines 609-610: both termination signals start with the custom handler
installed and nothing raised yet. -/
def initial_signal_state : SignalState :=
  SignalState.mk Disposition.custom Disposition.custom 0

/-- A fully neutered state absorbs any further termination signal. -/
theorem deliver_neutered (t : Sig) (n : Nat) :
    deliver t (SignalState.mk Disposition.ignored Disposition.ignored n)
      = SignalState.mk Disposition.ignored Disposition.ignored n := by
  cases t <;> rfl

theorem deliver_all_neutered (sigs : List Sig) (n : Nat) :
    deliver_all sigs (SignalState.mk Disposition.ignored Disposition.ignored n)
      = SignalState.mk Disposition.ignored Disposition.ignored n := by
  induction sigs with
  | nil => rfl
  | cons t rest ih =>
    show deliver_all rest
        (deliver t (SignalState.mk Disposition.ignored Disposition.ignored n))
      = SignalState.mk Disposition.ignored Disposition.ignored n
    rw [deliver_neutered]
    exact ih

/-! ### Claim C2 -/

/-- C2: On the first termination signal the handler body first installs
SIG_IGN for the whole termination-signal set and raises WatchdogShutdown
only as its last step; the first delivery leaves both signals ignored
with exactly one raise, every later delivery of any termination signal
leaves the state untouched, and over any delivery sequence the raise
count is exactly one. -/
theorem handler_termination_signal_triggers_once (s : Sig) (rest : List Sig) :
    (∃ pre, handler_termination_signal = pre ++ [SigStep.raise_shutdown]
        ∧ ∀ t : Sig, SigStep.set_ignore t ∈ pre)
    ∧ deliver s initial_signal_state
        = SignalState.mk Disposition.ignored Disposition.ignored 1
    ∧ deliver_all rest (deliver s initial_signal_state)
        = deliver s initial_signal_state
    ∧ (deliver_all (s :: rest) initial_signal_state).raises = 1 := by
  have hfirst : deliver s initial_signal_state
      = SignalState.mk Disposition.ignored Disposition.ignored 1 := by
    cases s <;> rfl
  refine ⟨⟨[SigStep.set_ignore Sig.sigterm, SigStep.set_ignore Sig.sigint],
      rfl, ?_⟩, hfirst, ?_, ?_⟩
  · intro t
    cases t <;> simp
  · rw [hfirst]
    exact deliver_all_neutered rest 1
  · show (deliver_all rest (deliver s initial_signal_state)).raises = 1
    rw [hfirst, deliver_all_neutered]

/-! ### Multi-observer teardown (tricks_from, lines 260-268)

On WatchdogShutdown the code runs one loop calling unschedule_all and
stop on each observer in start order, then a second loop calling join on
each. Neither loop guards its calls: an exception from any call
propagates out of the loop at once. Each observer is modelled by which
of its three methods would raise; teardown returns the list of calls
attempted, in order, and whether an exception escaped. -/

/-- Which of an observer's teardown methods raise when called. -/
structure ObserverBehavior where
  unschedule_raises : Bool
  stop_raises : Bool
  join_raises : Bool
deriving DecidableEq, Repr

/-- One attempted teardown call, tagged with the observer's position in
start order. -/
inductive TeardownCall
  | unschedule_all (i : Nat)
  | stop (i : Nat)
  | join (i : Nat)
deriving DecidableEq, Repr

/-- Lines 264-266: per observer, call unschedule_all then stop; a raise
escapes the loop immediately. Returns attempted calls and whether an
exception escaped. -/
def stop_loop (i : Nat) : List ObserverBehavior → List TeardownCall × Bool
  | [] => ([], false)
  | o :: rest =>
    if o.unschedule_raises then ([TeardownCall.unschedule_all i], true)
    else if o.stop_raises then
      ([TeardownCall.unschedule_all i, TeardownCall.stop i], true)
    else
      let r := stop_loop (i + 1) rest
      (TeardownCall.unschedule_all i :: TeardownCall.stop i :: r.1, r.2)

/-- Lines 267-268: join each observer; a raise escapes immediately. -/
def join_loop (i : Nat) : List ObserverBehavior → List TeardownCall × Bool
  | [] => ([], false)
  | o :: rest =>
    if o.join_raises then ([TeardownCall.join i], true)
    else
      let r := join_loop (i + 1) rest
      (TeardownCall.join i :: r.1, r.2)

/-- Lines 263-268: the whole teardown after cancellation. The join loop
runs only if the stop loop completed without an exception, because an
exception in the except-block propagates past the join loop. -/
def teardown (observers : List ObserverBehavior) : List TeardownCall × Bool :=
  let r1 := stop_loop 0 observers
  if r1.2 then (r1.1, true)
  else
    let r2 := join_loop 0 observers
    (r1.1 ++ r2.1, r2.2)

/-- An observer none of whose teardown methods raise. -/
def clean_observer (o : ObserverBehavior) : Bool :=
  !o.unschedule_raises && !o.stop_raises && !o.join_raises

/-- The calls of a completed stop loop over n observers starting at i. -/
def clean_stop_calls (i : Nat) : Nat → List TeardownCall
  | 0 => []
  | n + 1 =>
      TeardownCall.unschedule_all i :: TeardownCall.stop i
        :: clean_stop_calls (i + 1) n

/-- The calls of a completed join loop over n observers starting at i. -/
def clean_join_calls (i : Nat) : Nat → List TeardownCall
  | 0 => []
  | n + 1 => TeardownCall.join i :: clean_join_calls (i + 1) n

theorem stop_loop_clean :
    ∀ (observers : List ObserverBehavior) (i : Nat),
    (∀ o ∈ observers, clean_observer o = true) →
    stop_loop i observers = (clean_stop_calls i observers.length, false) := by
  intro observers
  induction observers with
  | nil => intro i _; rfl
  | cons o rest ih =>
    intro i h
    have ho := h o (List.mem_cons_self o rest)
    have hrest := fun q hq => h q (List.mem_cons_of_mem o hq)
    simp [clean_observer] at ho
    obtain ⟨⟨hu, hs⟩, hj⟩ := ho
    unfold stop_loop
    simp [hu, hs, ih (i + 1) hrest, clean_stop_calls, List.length_cons]

theorem join_loop_clean :
    ∀ (observers : List ObserverBehavior) (i : Nat),
    (∀ o ∈ observers, clean_observer o = true) →
    join_loop i observers = (clean_join_calls i observers.length, false) := by
  intro observers
  induction observers with
  | nil => intro i _; rfl
  | cons o rest ih =>
    intro i h
    have ho := h o (List.mem_cons_self o rest)
    have hrest := fun q hq => h q (List.mem_cons_of_mem o hq)
    simp [clean_observer] at ho
    obtain ⟨⟨hu, hs⟩, hj⟩ := ho
    unfold join_loop
    simp [hj, ih (i + 1) hrest, clean_join_calls, List.length_cons]

theorem stop_loop_short_circuit :
    ∀ (pre : List ObserverBehavior) (bad : ObserverBehavior)
      (post : List ObserverBehavior) (i : Nat),
    (∀ o ∈ pre, clean_observer o = true) →
    bad.unschedule_raises = false → bad.stop_raises = true →
    stop_loop i (pre ++ bad :: post)
      = (clean_stop_calls i pre.length
          ++ [TeardownCall.unschedule_all (i + pre.length),
              TeardownCall.stop (i + pre.length)], true) := by
  intro pre
  induction pre with
  | nil =>
    intro bad post i _ hbu hbs
    simp only [List.nil_append, clean_stop_calls, List.length_nil, Nat.add_zero]
    unfold stop_loop
    simp [hbu, hbs]
  | cons o rest ih =>
    intro bad post i h hbu hbs
    have ho := h o (List.mem_cons_self o rest)
    have hrest := fun q hq => h q (List.mem_cons_of_mem o hq)
    simp [clean_observer] at ho
    obtain ⟨⟨hu, hs⟩, hj⟩ := ho
    simp only [List.cons_append]
    unfold stop_loop
    have harith : i + 1 + rest.length = i + (rest.length + 1) := by omega
    simp [hu, hs, ih bad post (i + 1) hrest hbu hbs, clean_stop_calls,
      List.length_cons, harith]

/-! ### Claim C3 -/

/-- C3 counterexample: with two observers where the first observer's stop
raises, teardown attempts only unschedule_all and stop on observer 0 and
the exception escapes: observer 1 is never stopped and neither observer
is ever joined, so the stop/join of every observer is not attempted. -/
theorem teardown_short_circuits_on_failure :
    teardown [ObserverBehavior.mk false true false,
              ObserverBehavior.mk false false false]
      = ([TeardownCall.unschedule_all 0, TeardownCall.stop 0], true)
    ∧ TeardownCall.stop 1
        ∉ (teardown [ObserverBehavior.mk false true false,
                     ObserverBehavior.mk false false false]).1
    ∧ TeardownCall.join 0
        ∉ (teardown [ObserverBehavior.mk false true false,
                     ObserverBehavior.mk false false false]).1
    ∧ TeardownCall.join 1
        ∉ (teardown [ObserverBehavior.mk false true false,
                     ObserverBehavior.mk false false false]).1 := by
  refine ⟨rfl, ?_, ?_, ?_⟩ <;> decide

/-- C3 amended: when cancellation interrupts the run loop the session
runs unschedule_all then stop on each observer in start order and then
joins each in start order, provided no call raises; but teardown is not
guarded per observer: if the stop of one observer raises while the
earlier ones were clean, the exception escapes at once, the remaining
observers are not stopped, and no observer is joined. -/
theorem teardown_order_and_short_circuit
    (observers pre post : List ObserverBehavior) (bad : ObserverBehavior)
    (hclean : ∀ o ∈ observers, clean_observer o = true)
    (hpre : ∀ o ∈ pre, clean_observer o = true)
    (hbu : bad.unschedule_raises = false) (hbs : bad.stop_raises = true) :
    teardown observers
      = (clean_stop_calls 0 observers.length
          ++ clean_join_calls 0 observers.length, false)
    ∧ teardown (pre ++ bad :: post)
      = (clean_stop_calls 0 pre.length
          ++ [TeardownCall.unschedule_all pre.length,
              TeardownCall.stop pre.length], true) := by
  constructor
  · unfold teardown
    rw [stop_loop_clean observers 0 hclean]
    simp [join_loop_clean observers 0 hclean]
  · unfold teardown
    rw [stop_loop_short_circuit pre bad post 0 hpre hbu hbs]
    simp

theorem teardown_order_and_short_circuit_witness :
    teardown [ObserverBehavior.mk false false false,
              ObserverBehavior.mk false false false]
      = (clean_stop_calls 0 2 ++ clean_join_calls 0 2, false)
    ∧ teardown ([ObserverBehavior.mk false false false]
          ++ ObserverBehavior.mk false true false
            :: [ObserverBehavior.mk false false false])
      = (clean_stop_calls 0 1
          ++ [TeardownCall.unschedule_all 1, TeardownCall.stop 1], true) :=
  teardown_order_and_short_circuit
    [ObserverBehavior.mk false false false, ObserverBehavior.mk false false false]
    [ObserverBehavior.mk false false false]
    [ObserverBehavior.mk false false false]
    (ObserverBehavior.mk false true false)
    (by decide) (by decide) rfl rfl

/-! ### The tricks command startup (tricks_from, lines 234-258)

After the startup-supplied python-path roots are added, the command
iterates the configuration files: per file it checks existence, loads
the configuration, requires the tricks key, adds the file's own extra
python-path roots if present, schedules the tricks, and starts that
file's observer before moving to the next file. The run is modelled as
the ordered list of externally visible events (search-path mutations and
observer starts) plus the first uncaught startup exception, if any. -/

/-- One configuration file as the startup loop sees it: whether the file
exists on disk, whether the configuration has the tricks key, the
optional extra python-path roots, the trick entries, and the directory
used as the default watch path. -/
structure FileConfig where
  file_on_disk : Bool
  has_tricks_key : Bool
  python_path : Option (List String)
  tricks : List Trick
  dir_path : String

/-- An externally visible startup event: a mutation of the global
resolution search path, or the start of the observer for file i. -/
inductive RunEvent
  | sys_path_add (paths : List String)
  | observer_started (i : Nat)
deriving DecidableEq, Repr

/-- A startup exception aborting the run. -/
inductive RunError
  | file_missing (i : Nat)
  | no_tricks_key (i : Nat)
  | schedule_error (i : Nat) (e : String)
deriving DecidableEq, Repr

/-- Lines 250-251: the search-path mutation a file contributes, if any. -/
def python_path_events (f : FileConfig) : List RunEvent :=
  match f.python_path with
  | Option.some ps => [RunEvent.sys_path_add ps]
  | Option.none => []

/-- Lines 236-258: the per-file loop, file i first. Any raised exception
aborts the loop at once; events already emitted have happened. -/
def tricks_from_loop (env : Env) (recursive : Bool) (i : Nat) :
    List FileConfig → List RunEvent × Option RunError
  | [] => ([], Option.none)
  | f :: rest =>
    if f.file_on_disk = false then ([], Option.some (RunError.file_missing i))
    else if f.has_tricks_key = false then
      ([], Option.some (RunError.no_tricks_key i))
    else
      match (schedule_tricks env f.tricks f.dir_path recursive).2 with
      | Option.some e =>
          (python_path_events f, Option.some (RunError.schedule_error i e))
      | Option.none =>
          let r := tricks_from_loop env recursive (i + 1) rest
          (python_path_events f ++ RunEvent.observer_started i :: r.1, r.2)

/-- Lines 234-258: the whole startup of the tricks command: the
startup-supplied roots are added first, then the files are processed in
order. -/
def tricks_from (startup_paths : List String) (env : Env) (recursive : Bool)
    (files : List FileConfig) : List RunEvent × Option RunError :=
  let r := tricks_from_loop env recursive 0 files
  (RunEvent.sys_path_add startup_paths :: r.1, r.2)

/-- A file whose processing raises no exception. -/
def file_ok (env : Env) (recursive : Bool) (f : FileConfig) : Bool :=
  f.file_on_disk && f.has_tricks_key
    && (schedule_tricks env f.tricks f.dir_path recursive).2.isNone

/-- The events of a fully successful loop over the given files, file i
first: each file contributes its own search-path mutation, if any,
immediately followed by the start of its observer. -/
def clean_run_events (i : Nat) : List FileConfig → List RunEvent
  | [] => []
  | f :: rest =>
      python_path_events f
        ++ RunEvent.observer_started i :: clean_run_events (i + 1) rest

theorem tricks_from_loop_clean (env : Env) (recursive : Bool) :
    ∀ (files : List FileConfig) (i : Nat),
    (∀ f ∈ files, file_ok env recursive f = true) →
    tricks_from_loop env recursive i files = (clean_run_events i files, Option.none) := by
  intro files
  induction files with
  | nil => intro i _; rfl
  | cons f rest ih =>
    intro i h
    have hf := h f (List.mem_cons_self f rest)
    have hrest := fun q hq => h q (List.mem_cons_of_mem f hq)
    simp [file_ok] at hf
    obtain ⟨⟨hd, hk⟩, hs⟩ := hf
    unfold tricks_from_loop
    rw [if_neg (by simp [hd]), if_neg (by simp [hk]), hs]
    simp [ih (i + 1) hrest, clean_run_events]

theorem tricks_from_loop_fails_at (env : Env) (recursive : Bool) :
    ∀ (pre : List FileConfig) (bad : FileConfig) (post : List FileConfig)
      (i : Nat) (e : String),
    (∀ f ∈ pre, file_ok env recursive f = true) →
    bad.file_on_disk = true → bad.has_tricks_key = true →
    (schedule_tricks env bad.tricks bad.dir_path recursive).2 = Option.some e →
    tricks_from_loop env recursive i (pre ++ bad :: post)
      = (clean_run_events i pre ++ python_path_events bad,
         Option.some (RunError.schedule_error (i + pre.length) e)) := by
  intro pre
  induction pre with
  | nil =>
    intro bad post i e _ hd hk hs
    simp only [List.nil_append, clean_run_events, List.length_nil, Nat.add_zero]
    unfold tricks_from_loop
    rw [if_neg (by simp [hd]), if_neg (by simp [hk]), hs]
  | cons f rest ih =>
    intro bad post i e h hd hk hs
    have hf := h f (List.mem_cons_self f rest)
    have hrest := fun q hq => h q (List.mem_cons_of_mem f hq)
    simp [file_ok] at hf
    obtain ⟨⟨hfd, hfk⟩, hfs⟩ := hf
    simp only [List.cons_append]
    unfold tricks_from_loop
    rw [if_neg (by simp [hfd]), if_neg (by simp [hfk]), hfs]
    have harith : i + 1 + rest.length = i + (rest.length + 1) := by omega
    simp [ih bad post (i + 1) e hrest hd hk hs, clean_run_events,
      List.length_cons, harith]

theorem observer_started_not_mem_python_path_events (f : FileConfig) (j : Nat) :
    RunEvent.observer_started j ∉ python_path_events f := by
  unfold python_path_events
  cases hp : f.python_path <;> simp

theorem observer_started_mem_clean_run_events :
    ∀ (files : List FileConfig) (i j : Nat),
    RunEvent.observer_started j ∈ clean_run_events i files
      ↔ i ≤ j ∧ j < i + files.length := by
  intro files
  induction files with
  | nil => intro i j; simp [clean_run_events]
  | cons f rest ih =>
    intro i j
    unfold clean_run_events
    rw [List.mem_append, List.mem_cons]
    simp only [List.length_cons]
    constructor
    · intro hmem
      rcases hmem with hpy | heq | htail
      · exact absurd hpy (observer_started_not_mem_python_path_events f j)
      · have hj : j = i := by injection heq
        omega
      · have := (ih (i + 1) j).mp htail
        omega
    · intro hrange
      by_cases heq : j = i
      · exact Or.inr (Or.inl (by rw [heq]))
      · exact Or.inr (Or.inr ((ih (i + 1) j).mpr (by omega)))

/-! ### Claim C4 -/

/-- C4 counterexample: with two configuration files, where the first
schedules cleanly and a spec of the second fails to resolve, the run
aborts with an error, yet the observer of the first file has already
been started — the error does not propagate before any observer starts. -/
theorem tricks_from_partial_startup :
    (tricks_from ["."] demo_env true
        [FileConfig.mk true true Option.none [] "/a",
         FileConfig.mk true true Option.none [[("missing.Trick", [])]] "/b"]).2
      = Option.some (RunError.schedule_error 1 "cannot load")
    ∧ RunEvent.observer_started 0
        ∈ (tricks_from ["."] demo_env true
            [FileConfig.mk true true Option.none [] "/a",
             FileConfig.mk true true Option.none [[("missing.Trick", [])]] "/b"]).1 := by
  constructor
  · rfl
  · decide

/-- C4 amended: a trick spec that fails to resolve aborts the run before
the observer for its own configuration file is started and no later
observer starts, but the observers of all earlier configuration files
have already been started by then — fail-fast holds only per file, not
for the whole run. -/
theorem tricks_from_fail_fast_per_file
    (startup : List String) (env : Env) (recursive : Bool)
    (pre : List FileConfig) (bad : FileConfig) (post : List FileConfig) (e : String)
    (hpre : ∀ f ∈ pre, file_ok env recursive f = true)
    (hd : bad.file_on_disk = true) (hk : bad.has_tricks_key = true)
    (hs : (schedule_tricks env bad.tricks bad.dir_path recursive).2 = Option.some e) :
    (tricks_from startup env recursive (pre ++ bad :: post)).2
      = Option.some (RunError.schedule_error pre.length e)
    ∧ (∀ j, RunEvent.observer_started j
          ∈ (tricks_from startup env recursive (pre ++ bad :: post)).1 → j < pre.length)
    ∧ (∀ j, j < pre.length → RunEvent.observer_started j
          ∈ (tricks_from startup env recursive (pre ++ bad :: post)).1) := by
  have hloop := tricks_from_loop_fails_at env recursive pre bad post 0 e hpre hd hk hs
  have hrun : tricks_from startup env recursive (pre ++ bad :: post)
      = (RunEvent.sys_path_add startup
          :: (clean_run_events 0 pre ++ python_path_events bad),
         Option.some (RunError.schedule_error (0 + pre.length) e)) := by
    unfold tricks_from
    rw [hloop]
  rw [hrun]
  refine ⟨by simp, ?_, ?_⟩
  · intro j hj
    rcases List.mem_cons.mp hj with heq | hmem
    · exact absurd heq (by simp)
    · rcases List.mem_append.mp hmem with hclean | hpy
      · have := (observer_started_mem_clean_run_events pre 0 j).mp hclean
        omega
      · exact absurd hpy (observer_started_not_mem_python_path_events bad j)
  · intro j hj
    refine List.mem_cons_of_mem _ (List.mem_append.mpr (Or.inl ?_))
    exact (observer_started_mem_clean_run_events pre 0 j).mpr (by omega)

theorem tricks_from_fail_fast_per_file_witness :
    (tricks_from ["."] demo_env true
        ([FileConfig.mk true true Option.none [] "/a"]
          ++ FileConfig.mk true true Option.none [[("missing.Trick", [])]] "/b"
            :: [])).2
      = Option.some (RunError.schedule_error 1 "cannot load")
    ∧ (∀ j, RunEvent.observer_started j
          ∈ (tricks_from ["."] demo_env true
              ([FileConfig.mk true true Option.none [] "/a"]
                ++ FileConfig.mk true true Option.none [[("missing.Trick", [])]] "/b"
                  :: [])).1 → j < 1)
    ∧ (∀ j, j < 1 → RunEvent.observer_started j
          ∈ (tricks_from ["."] demo_env true
              ([FileConfig.mk true true Option.none [] "/a"]
                ++ FileConfig.mk true true Option.none [[("missing.Trick", [])]] "/b"
                  :: [])).1) :=
  tricks_from_fail_fast_per_file ["."] demo_env true
    [FileConfig.mk true true Option.none [] "/a"]
    (FileConfig.mk true true Option.none [[("missing.Trick", [])]] "/b")
    [] "cannot load" (by decide) rfl rfl (by rfl)

/-! ### Claim C7 -/

/-- True when no search-path mutation appears once any observer has
started; the flag records whether an observer start has been seen. -/
def no_mutation_after_start (started : Bool) : List RunEvent → Bool
  | [] => true
  | RunEvent.sys_path_add _ :: rest => !started && no_mutation_after_start started rest
  | RunEvent.observer_started _ :: rest => no_mutation_after_start true rest

/-- C7 counterexample: two configuration files both supplying extra
python-path roots, both scheduling cleanly. The run succeeds, yet the
second file's search-path mutation happens after the first observer has
started, so the search path is mutated again after the first observer
start. -/
theorem tricks_from_mutation_after_start :
    tricks_from ["."] demo_env true
        [FileConfig.mk true true (Option.some ["/r1"]) [] "/a",
         FileConfig.mk true true (Option.some ["/r2"]) [] "/b"]
      = ([RunEvent.sys_path_add ["."], RunEvent.sys_path_add ["/r1"],
          RunEvent.observer_started 0, RunEvent.sys_path_add ["/r2"],
          RunEvent.observer_started 1], Option.none)
    ∧ no_mutation_after_start false
        (tricks_from ["."] demo_env true
          [FileConfig.mk true true (Option.some ["/r1"]) [] "/a",
           FileConfig.mk true true (Option.some ["/r2"]) [] "/b"]).1
      = false := by
  constructor
  · rfl
  · rfl

/-- C7 amended: the startup-supplied roots are added before anything
else, and each configuration file's extra roots are added immediately
before that file's own observer is started — hence after the observers
of all earlier configuration files have started; the claimed policy of
no mutation after the first observer start holds only for runs with at
most one configuration file carrying extra roots in first position. -/
theorem tricks_from_mutations_per_file
    (startup : List String) (env : Env) (recursive : Bool)
    (files : List FileConfig)
    (h : ∀ f ∈ files, file_ok env recursive f = true) :
    tricks_from startup env recursive files
      = (RunEvent.sys_path_add startup :: clean_run_events 0 files,
         Option.none) := by
  unfold tricks_from
  rw [tricks_from_loop_clean env recursive files 0 h]

theorem tricks_from_mutations_per_file_witness :
    tricks_from ["."] demo_env true
        [FileConfig.mk true true (Option.some ["/r1"]) [] "/a",
         FileConfig.mk true true (Option.some ["/r2"]) [] "/b"]
      = (RunEvent.sys_path_add ["."]
          :: clean_run_events 0
              [FileConfig.mk true true (Option.some ["/r1"]) [] "/a",
               FileConfig.mk true true (Option.some ["/r2"]) [] "/b"],
         Option.none) :=
  tricks_from_mutations_per_file ["."] demo_env true
    [FileConfig.mk true true (Option.some ["/r1"]) [] "/a",
     FileConfig.mk true true (Option.some ["/r2"]) [] "/b"]
    (by decide)

/-! ### ProcessSupervisor (auto_restart trick)

The auto_restart command (lines 614-629) constructs an AutoRestartTrick
with the command line, stop signal and kill_after timeout, starts it,
and stops it at teardown. The trick class itself lives in the module
watchdog.tricks, which is not part of the sources here, so its dynamics
are modelled from the spec. Whether the child exits voluntarily within
kill_after seconds of the stop signal is abstracted as a Boolean input
per event; real time is not modelled. -/

/-- Modelled from the spec: the configuration of the AutoRestartTrick of
watchdog.tricks (not under the given sources): the supervised command
line, the configured stop signal and the kill_after timeout. -/
structure SupervisorConfig where
  command : List String
  stop_signal : Nat
  kill_after : Nat

/-- One observable action on the supervised child process. -/
inductive ProcAction
  | spawn (pid : Nat) (command : List String)
  | send_stop_signal (pid : Nat) (sig : Nat)
  | voluntary_exit (pid : Nat)
  | force_kill (pid : Nat)
deriving DecidableEq, Repr

/-- The supervisor state: the pid of the running child, if any, and the
pid the next spawn will use. -/
structure SupervisorState where
  child : Option Nat
  next_pid : Nat
deriving DecidableEq, Repr

/-- Modelled from the spec: the stop sequence of the AutoRestartTrick
(not under the given sources): send the configured stop signal to the
current child, wait up to kill_after seconds for voluntary exit, and
force-kill if the child is still alive; idempotent no-op when nothing is
running. The voluntary flag abstracts whether the child exits within
kill_after. -/
def supervisor_stop (cfg : SupervisorConfig) (voluntary : Bool)
    (st : SupervisorState) : SupervisorState × List ProcAction :=
  match st.child with
  | Option.none => (st, [])
  | Option.some pid =>
      if voluntary then
        (SupervisorState.mk Option.none st.next_pid,
         [ProcAction.send_stop_signal pid cfg.stop_signal,
          ProcAction.voluntary_exit pid])
      else
        (SupervisorState.mk Option.none st.next_pid,
         [ProcAction.send_stop_signal pid cfg.stop_signal,
          ProcAction.force_kill pid])

/-- Modelled from the spec: the start operation of the AutoRestartTrick
(not under the given sources): launch the child with the configured
command line if absent; no-op if already running. -/
def supervisor_start (cfg : SupervisorConfig) (st : SupervisorState) :
    SupervisorState × List ProcAction :=
  match st.child with
  | Option.some _ => (st, [])
  | Option.none =>
      (SupervisorState.mk (Option.some st.next_pid) (st.next_pid + 1),
       [ProcAction.spawn st.next_pid cfg.command])

/-- Modelled from the spec: the restart of the AutoRestartTrick on a
qualifying event (not under the given sources): drive the previous child
to termination first, and only then launch the replacement with the
identical command line. -/
def restart_on_event (cfg : SupervisorConfig) (voluntary : Bool)
    (st : SupervisorState) : SupervisorState × List ProcAction :=
  let r1 := supervisor_stop cfg voluntary st
  let r2 := supervisor_start cfg r1.1
  (r2.1, r1.2 ++ r2.2)

/-- Run the supervisor over a sequence of qualifying events; each
Boolean says whether the child of that restart exits voluntarily. -/
def supervisor_run (cfg : SupervisorConfig) :
    List Bool → SupervisorState → SupervisorState × List ProcAction
  | [], st => (st, [])
  | v :: vs, st =>
      let r1 := restart_on_event cfg v st
      let r2 := supervisor_run cfg vs r1.1
      (r2.1, r1.2 ++ r2.2)

/-- The whole auto_restart session: handler.start() on line 622 launches
the first child from the empty state, then the events arrive. -/
def auto_restart_session (cfg : SupervisorConfig) (events : List Bool) :
    SupervisorState × List ProcAction :=
  let r0 := supervisor_start cfg (SupervisorState.mk Option.none 0)
  let r := supervisor_run cfg events r0.1
  (r.1, r0.2 ++ r.2)

/-- The number of children in the running state after a trace of
actions, starting from n running children. -/
def running_after (n : Nat) : List ProcAction → Nat
  | [] => n
  | ProcAction.spawn _ _ :: rest => running_after (n + 1) rest
  | ProcAction.send_stop_signal _ _ :: rest => running_after n rest
  | ProcAction.voluntary_exit _ :: rest => running_after (n - 1) rest
  | ProcAction.force_kill _ :: rest => running_after (n - 1) rest

/-- Number of running children a supervisor state accounts for. -/
def live (st : SupervisorState) : Nat :=
  match st.child with
  | Option.some _ => 1
  | Option.none => 0

/-- Every prefix of the trace keeps at most one child running, starting
from n running children. -/
def bounded_from (n : Nat) (tr : List ProcAction) : Prop :=
  ∀ k, running_after n (tr.take k) ≤ 1

theorem running_after_append :
    ∀ (a : List ProcAction) (n : Nat) (b : List ProcAction),
    running_after n (a ++ b) = running_after (running_after n a) b := by
  intro a
  induction a with
  | nil => intro n b; rfl
  | cons x rest ih =>
    intro n b
    cases x <;> simp [running_after, List.cons_append, ih]

theorem bounded_from_append {n : Nat} {t1 t2 : List ProcAction}
    (h1 : bounded_from n t1) (h2 : bounded_from (running_after n t1) t2) :
    bounded_from n (t1 ++ t2) := by
  intro k
  rw [List.take_append_eq_append_take, running_after_append]
  by_cases hk : k ≤ t1.length
  · have : k - t1.length = 0 := by omega
    rw [this]
    exact h1 k
  · rw [List.take_of_length_le (by omega)]
    exact h2 (k - t1.length)

theorem live_le_one (st : SupervisorState) : live st ≤ 1 := by
  unfold live
  cases st.child <;> simp

theorem restart_on_event_bounded (cfg : SupervisorConfig) (v : Bool)
    (st : SupervisorState) :
    bounded_from (live st) (restart_on_event cfg v st).2
    ∧ running_after (live st) (restart_on_event cfg v st).2
        = live (restart_on_event cfg v st).1 := by
  cases hc : st.child with
  | none =>
    constructor
    · intro k
      simp [restart_on_event, supervisor_stop, supervisor_start, hc, live]
      rcases k with _ | k <;> simp [running_after, List.take]
    · simp [restart_on_event, supervisor_stop, supervisor_start, hc, live, running_after]
  | some pid =>
    cases v <;> constructor
    · intro k
      simp [restart_on_event, supervisor_stop, supervisor_start, hc, live]
      rcases k with _ | _ | _ | k <;> simp [running_after, List.take]
    · simp [restart_on_event, supervisor_stop, supervisor_start, hc, live, running_after]
    · intro k
      simp [restart_on_event, supervisor_stop, supervisor_start, hc, live]
      rcases k with _ | _ | _ | k <;> simp [running_after, List.take]
    · simp [restart_on_event, supervisor_stop, supervisor_start, hc, live, running_after]

theorem supervisor_run_bounded (cfg : SupervisorConfig) :
    ∀ (events : List Bool) (st : SupervisorState),
    bounded_from (live st) (supervisor_run cfg events st).2
    ∧ running_after (live st) (supervisor_run cfg events st).2
        = live (supervisor_run cfg events st).1 := by
  intro events
  induction events with
  | nil =>
    intro st
    constructor
    · intro k
      simp [supervisor_run, running_after, List.take]
      exact live_le_one st
    · rfl
  | cons v vs ih =>
    intro st
    have hstep := restart_on_event_bounded cfg v st
    have hrest := ih (restart_on_event cfg v st).1
    constructor
    · show bounded_from (live st)
        ((restart_on_event cfg v st).2
          ++ (supervisor_run cfg vs (restart_on_event cfg v st).1).2)
      refine bounded_from_append hstep.1 ?_
      rw [hstep.2]
      exact hrest.1
    · show running_after (live st)
        ((restart_on_event cfg v st).2
          ++ (supervisor_run cfg vs (restart_on_event cfg v st).1).2)
        = live (supervisor_run cfg vs (restart_on_event cfg v st).1).1
      rw [running_after_append, hstep.2]
      exact hrest.2

theorem supervisor_run_spawn_command (cfg : SupervisorConfig) :
    ∀ (events : List Bool) (st : SupervisorState) (pid : Nat) (c : List String),
    ProcAction.spawn pid c ∈ (supervisor_run cfg events st).2 → c = cfg.command := by
  intro events
  induction events with
  | nil => intro st pid c h; simp [supervisor_run] at h
  | cons v vs ih =>
    intro st pid c h
    have hsplit : ProcAction.spawn pid c ∈ (restart_on_event cfg v st).2
        ∨ ProcAction.spawn pid c ∈ (supervisor_run cfg vs (restart_on_event cfg v st).1).2 :=
      List.mem_append.mp h
    rcases hsplit with hfirst | hrest
    · cases hc : st.child with
      | none =>
        simp [restart_on_event, supervisor_stop, supervisor_start, hc] at hfirst
        exact hfirst.2
      | some p =>
        cases v <;>
          simp [restart_on_event, supervisor_stop, supervisor_start, hc] at hfirst <;>
          exact hfirst.2
    · exact ih (restart_on_event cfg v st).1 pid c hrest

/-! ### Claim C5 -/

/-- C5: Over any sequence of qualifying events, every prefix of the
session trace has at most one child in the running state, so no two
children ever run simultaneously; every spawned replacement uses the
identical configured command line; and a restart from a running child
first sends the configured stop signal, then sees the child terminate,
voluntarily if it exits within kill_after and by force-kill otherwise,
and only then launches the replacement. -/
theorem auto_restart_never_two_children (cfg : SupervisorConfig) (events : List Bool) :
    (∀ k, running_after 0 ((auto_restart_session cfg events).2.take k) ≤ 1)
    ∧ (∀ pid c, ProcAction.spawn pid c ∈ (auto_restart_session cfg events).2
        → c = cfg.command)
    ∧ (∀ pid k v, restart_on_event cfg v (SupervisorState.mk (Option.some pid) k)
        = (SupervisorState.mk (Option.some k) (k + 1),
           [ProcAction.send_stop_signal pid cfg.stop_signal,
            if v then ProcAction.voluntary_exit pid else ProcAction.force_kill pid,
            ProcAction.spawn k cfg.command])) := by
  have hrun := supervisor_run_bounded cfg events
      (SupervisorState.mk (Option.some 0) 1)
  refine ⟨?_, ?_, ?_⟩
  · show bounded_from 0
      ([ProcAction.spawn 0 cfg.command]
        ++ (supervisor_run cfg events (SupervisorState.mk (Option.some 0) 1)).2)
    refine bounded_from_append ?_ ?_
    · intro k
      rcases k with _ | k <;> simp [running_after, List.take]
    · show bounded_from (running_after 0 [ProcAction.spawn 0 cfg.command]) _
      have h1 : running_after 0 [ProcAction.spawn 0 cfg.command] = 1 := rfl
      rw [h1]
      have h2 : live (SupervisorState.mk (Option.some 0) 1) = 1 := rfl
      rw [← h2]
      exact hrun.1
  · intro pid c hmem
    have hsplit : ProcAction.spawn pid c ∈ [ProcAction.spawn 0 cfg.command]
        ∨ ProcAction.spawn pid c
            ∈ (supervisor_run cfg events (SupervisorState.mk (Option.some 0) 1)).2 :=
      List.mem_append.mp hmem
    rcases hsplit with hfirst | hrest
    · simp at hfirst
      exact hfirst.2
    · exact supervisor_run_spawn_command cfg events
        (SupervisorState.mk (Option.some 0) 1) pid c hrest
  · intro pid k v
    cases v <;> rfl

end Watchmedo
